import Mathlib

/-!
Verification of the simple-polling-application data layer.

The definitions below are a shallow embedding of the program:
* the Postgres schema and stored query functions of
  `src/scripts/005-fix-table-dependencies.sql` (tables `polls` and `votes`,
  functions `get_poll_statistics` and `get_poll_total_votes`);
* the client methods of `DatabaseService` in `src/lib/database.ts`
  (`castVote`, `createPoll`, `generateShareLink`, `disableSharing`,
  `getPollByShareToken`, `getPollStatistics`, `getPollTotalVotes`);
* the `getWinningOption` helper of the poll pages
  (`src/unnamed/part_000` and `src/components/user-dashboard.tsx`).

The database is modelled as an explicit state (the rows of the two tables);
row ids and timestamps that no modelled code path inspects are omitted.
Storage-layer failures are surfaced as Postgres error codes, exactly as the
client code observes them ("23505" unique violation, "23503" foreign-key
violation, "23514" check violation).
-/

namespace Polling

/-- A row of the `polls` table (`005-fix-table-dependencies.sql`, lines 24-32).
`created_at` is not modelled; no modelled code path branches on it. -/
structure Poll where
  id : String
  question : String
  options : List String
  user_id : Option String
  is_public : Bool
  share_token : Option String
deriving DecidableEq, Repr

/-- A row of the `votes` table (`005-fix-table-dependencies.sql`, lines 40-50).
`id`, `voter_ip` and `created_at` are not modelled; no modelled code path
branches on them. -/
structure Vote where
  poll_id : String
  option_index : Int
  voter_session : String
deriving DecidableEq, Repr

/-- The stored rows of the two tables. -/
structure DBState where
  polls : List Poll
  votes : List Vote
deriving DecidableEq, Repr

/-- A storage-layer error as the supabase client reports it: the code the
client inspects (`error.code` in `src/lib/database.ts`). -/
structure PgError where
  code : String
deriving DecidableEq, Repr

/-- Inserting a row into `votes`: the storage layer enforces
`UNIQUE(poll_id, voter_session)` (error code 23505) and the foreign key
`poll_id REFERENCES polls(id)` (error code 23503).  A failed insert leaves
the state unchanged (no row is returned on error). -/
def votesInsert (s : DBState) (v : Vote) : Except PgError DBState :=
  if s.votes.any (fun w => w.poll_id == v.poll_id && w.voter_session == v.voter_session) then
    .error { code := "23505" }
  else if s.polls.any (fun p => p.id == v.poll_id) then
    .ok { s with votes := s.votes ++ [v] }
  else
    .error { code := "23503" }

/-- The outcome `DatabaseService.castVote` surfaces to its caller:
success, the dedicated "You have already voted on this poll" error, or a
generic `Failed to cast vote` error carrying the storage error code. -/
inductive CastVoteOutcome where
  | ok
  | alreadyVoted
  | failed (code : String)
deriving DecidableEq, Repr

/-- Model of `DatabaseService.castVote` (`src/lib/database.ts`, lines 190-210): insert
the vote row; if the insert fails with code 23505 surface the already-voted
error, otherwise surface a generic failure.  The second component is the
stored state after the call (unchanged whenever the insert failed). -/
def castVote (s : DBState) (pollId : String) (optionIndex : Int) (voterSession : String) :
    CastVoteOutcome × DBState :=
  match votesInsert s { poll_id := pollId, option_index := optionIndex,
                        voter_session := voterSession } with
  | .ok s2 => (.ok, s2)
  | .error e =>
    if e.code == "23505" then (.alreadyVoted, s)
    else (.failed e.code, s)

/-- Removing leading and trailing whitespace from a character list. -/
def trimChars (cs : List Char) : List Char :=
  (((cs.dropWhile Char.isWhitespace).reverse).dropWhile Char.isWhitespace).reverse

/-- Model of `String.prototype.trim` of the client code and Postgres `trim` of the
CHECK constraint (the client passes the question through `trim()` before the
SQL `trim` sees it, so on every string the constraint receives the two
agree): drop whitespace from both ends. -/
def strTrim (s : String) : String :=
  { data := trimChars s.data }

/-- The `CHECK (length(trim(question)) >= 5)` constraint on `polls`. -/
def questionCheck (q : String) : Bool :=
  5 ≤ (strTrim q).length

/-- The `CHECK (array_length(options, 1) >= 2)` constraint on `polls`.
In Postgres `array_length` of an empty array is NULL, and a CHECK whose
expression evaluates to NULL is satisfied, so an empty options array passes. -/
def optionsCheck (opts : List String) : Bool :=
  opts.isEmpty || 2 ≤ opts.length

/-- Inserting a row into `polls`: the storage layer enforces the two CHECK
constraints (error code 23514, check violation). -/
def pollsInsert (s : DBState) (p : Poll) : Except PgError DBState :=
  if questionCheck p.question && optionsCheck p.options then
    .ok { s with polls := s.polls ++ [p] }
  else
    .error { code := "23514" }

/-- Model of `DatabaseService.createPoll` (`src/lib/database.ts`, lines 282-325):
trim the question, drop options that are blank after trimming, and insert the
row with the id of the authenticated user (`is_public` and `share_token` take
their schema defaults).  The freshly generated row id is a parameter.
The second component is the stored state after the call (unchanged on
failure). -/
def createPoll (s : DBState) (uid newId question : String) (options : List String) :
    Except String Poll × DBState :=
  let poll : Poll :=
    { id := newId
      question := strTrim question
      options := options.filter (fun o => strTrim o != "")
      user_id := some uid
      is_public := false
      share_token := none }
  match pollsInsert s poll with
  | .ok s2 => (.ok poll, s2)
  | .error e => (.error ("Failed to create poll: " ++ e.code), s)

/-- Model of `DatabaseService.generateShareLink` (`src/lib/database.ts`, lines 327-361):
update the poll row matching `pollId` with `is_public := true` and the share
token, and return the token.  The token (from the `generate_share_token` RPC
or the local fallback) is a parameter. -/
def generateShareLink (s : DBState) (pollId token : String) : DBState × String :=
  ({ s with polls := s.polls.map (fun p =>
      if p.id == pollId then { p with is_public := true, share_token := some token } else p) },
   token)

/-- Model of `DatabaseService.disableSharing` (`src/lib/database.ts`, lines 363-381):
update the poll row matching `pollId` with `is_public := false` and a NULL
share token. -/
def disableSharing (s : DBState) (pollId : String) : DBState :=
  { s with polls := s.polls.map (fun p =>
      if p.id == pollId then { p with is_public := false, share_token := none } else p) }

/-- Model of `DatabaseService.getPollByShareToken` (`src/lib/database.ts`,
lines 383-413): select the single poll with the given share token and
`is_public = true`; zero rows (PGRST116) is mapped to `none`, any other
`.single()` failure (several rows) is rethrown. -/
def getPollByShareToken (s : DBState) (token : String) : Except PgError (Option Poll) :=
  match s.polls.filter (fun p => p.share_token == some token && p.is_public) with
  | [] => .ok none
  | [p] => .ok (some p)
  | _ => .error { code := "PGRST_MULTIPLE_ROWS" }

/-- One row of the result of `get_poll_statistics`
(`005-fix-table-dependencies.sql`, lines 117-148). -/
structure StatRow where
  option_index : Int
  vote_count : Nat
  percentage : ℚ
deriving DecidableEq, Repr

/-- Model of Postgres `ROUND(x, 2)` on the nonnegative NUMERIC values produced by
`get_poll_statistics` (round half away from zero coincides with round half
up on nonnegative arguments). -/
def roundTo2 (q : ℚ) : ℚ :=
  (round (q * 100) : ℤ) / 100

/-- The `WHERE v.poll_id = poll_uuid` clause of `get_poll_statistics`: the
vote rows of the poll. -/
def pollVotes (s : DBState) (pollId : String) : List Vote :=
  s.votes.filter (fun v => v.poll_id == pollId)

/-- The `COUNT(*) ... GROUP BY v.option_index` of the `vote_counts` CTE: the
number of votes of the poll with the given option index. -/
def optionCount (s : DBState) (pollId : String) (i : Int) : Nat :=
  ((pollVotes s pollId).filter (fun v => v.option_index == i)).length

/-- The grouped keys of the `vote_counts` CTE, in the output order imposed
by the final `ORDER BY vc.option_index`: the distinct option indexes among
the votes of the poll, ascending. -/
def groupedIndices (s : DBState) (pollId : String) : List Int :=
  List.insertionSort (fun a b : Int => a ≤ b)
    ((pollVotes s pollId).map (fun v => v.option_index)).dedup

/-- The `total_votes` CTE: `SUM(count)` over the grouped counts. -/
def statsTotal (s : DBState) (pollId : String) : Nat :=
  ((groupedIndices s pollId).map (optionCount s pollId)).sum

/-- The stored function `get_poll_statistics(poll_uuid)`
(`005-fix-table-dependencies.sql`, lines 117-148): one row per grouped
option index, ascending, carrying the count of the group and
`ROUND(count / total * 100, 2)` (the ELSE branch of the CASE yields 0 when
`total = 0`). -/
def get_poll_statistics (s : DBState) (pollId : String) : List StatRow :=
  (groupedIndices s pollId).map (fun i =>
    { option_index := i
      vote_count := optionCount s pollId i
      percentage :=
        if 0 < statsTotal s pollId then
          roundTo2 ((optionCount s pollId i : ℚ) / (statsTotal s pollId : ℚ) * 100)
        else 0 })

/-- The stored function `get_poll_total_votes(poll_uuid)`
(`005-fix-table-dependencies.sql`, lines 151-160): `COUNT(*)` over the
vote rows. -/
def get_poll_total_votes (s : DBState) (pollId : String) : Nat :=
  (s.votes.filter (fun v => v.poll_id == pollId)).length

/-- Model of `DatabaseService.getPollStatistics` (`src/lib/database.ts`,
lines 154-170): return the RPC data, or the empty list when the RPC errored
(or returned null).  The RPC outcome is a parameter. -/
def getPollStatistics (res : Except PgError (List StatRow)) : List StatRow :=
  match res with
  | .ok data => data
  | .error _ => []

/-- Model of `DatabaseService.getPollTotalVotes` (`src/lib/database.ts`,
lines 172-188): return the RPC data, or 0 when the RPC errored (or returned
null).  The RPC outcome is a parameter. -/
def getPollTotalVotes (res : Except PgError Nat) : Nat :=
  match res with
  | .ok n => n
  | .error _ => 0

/-- Model of `Math.max(...stats.map(stat => stat.vote_count))` over a statistics list
whose counts are nonnegative integers. -/
def maxVoteCount (stats : List StatRow) : Nat :=
  (stats.map (fun st => st.vote_count)).foldl max 0

/-- Model of `getWinningOption` (`src/unnamed/part_000`, lines 104-118, and
`src/components/user-dashboard.tsx`, lines 44-57): null on an empty
statistics list; otherwise take the first entry whose count equals the
maximum count, and return null when that maximum is zero. -/
def getWinningOption (stats : List StatRow) : Option StatRow :=
  if stats.isEmpty then none
  else
    let maxVotes := maxVoteCount stats
    match stats.find? (fun st => st.vote_count == maxVotes) with
    | none => none
    | some w => if maxVotes == 0 then none else some w

/-! ### Concrete database states used to instantiate the theorems -/

/-- A two-option poll, as in the worked scenario of the spec. -/
def pollAB : Poll :=
  { id := "poll1", question := "Which letter wins?", options := ["A", "B"],
    user_id := some "u1", is_public := true, share_token := some "tok1" }

/-- The worked scenario of the spec: the two-option poll with three votes cast by
distinct sessions choosing option indexes 0, 0 and 1. -/
def dbScenario : DBState :=
  { polls := [pollAB],
    votes := [ { poll_id := "poll1", option_index := 0, voter_session := "s1" },
               { poll_id := "poll1", option_index := 0, voter_session := "s2" },
               { poll_id := "poll1", option_index := 1, voter_session := "s3" } ] }

/-- The two-option poll with no votes yet. -/
def dbFresh : DBState :=
  { polls := [pollAB], votes := [] }

/-- An empty database: no polls, no votes. -/
def dbEmpty : DBState :=
  { polls := [], votes := [] }

/-- The two-option poll with a single vote, for option index 1. -/
def dbOneVote : DBState :=
  { polls := [pollAB],
    votes := [ { poll_id := "poll1", option_index := 1, voter_session := "s1" } ] }

/-- A private poll with no share token, for the share-link round trip. -/
def pollPrivate : Poll :=
  { id := "poll2", question := "Tabs or spaces?", options := ["Tabs", "Spaces"],
    user_id := some "u1", is_public := false, share_token := none }

/-- A database holding only the private poll. -/
def dbPrivate : DBState :=
  { polls := [pollPrivate], votes := [] }

/-- Seven option labels, none blank. -/
def sevenOptions : List String :=
  ["A", "B", "C", "D", "E", "F", "G"]

/-- The statistics rows of the worked scenario, used as a concrete
statistics list. -/
def statsExample : List StatRow :=
  [ { option_index := 0, vote_count := 2, percentage := 6667 / 100 },
    { option_index := 1, vote_count := 1, percentage := 3333 / 100 } ]

/-! ### Helper lemmas about trimming -/

/-- The list left by `dropWhile` is empty or starts with an element on which
the predicate fails. -/
theorem dropWhile_head_not (p : α → Bool) (l : List α) :
    l.dropWhile p = [] ∨ ∃ a t, l.dropWhile p = a :: t ∧ p a = false := by
  induction l with
  | nil => exact Or.inl rfl
  | cons a l ih =>
    by_cases h : p a = true
    · rw [List.dropWhile_cons_of_pos h]; exact ih
    · refine Or.inr ⟨a, l, List.dropWhile_cons_of_neg h, ?_⟩
      simpa using h

/-- Applying `dropWhile` with one predicate twice is applying it once. -/
theorem dropWhile_dropWhile_self (p : α → Bool) (l : List α) :
    (l.dropWhile p).dropWhile p = l.dropWhile p := by
  rcases dropWhile_head_not p l with h | ⟨a, t, h, ha⟩
  · rw [h]; rfl
  · rw [h, List.dropWhile_cons_of_neg (by simp [ha])]

/-- Trimming a character list twice is the same as trimming it once. -/
theorem trimChars_idem (cs : List Char) : trimChars (trimChars cs) = trimChars cs := by
  unfold trimChars
  set l1 := cs.dropWhile Char.isWhitespace with hl1
  set u := l1.reverse.dropWhile Char.isWhitespace with hu
  have hdrop1 : u.reverse.dropWhile Char.isWhitespace = u.reverse := by
    have hpre : u.reverse <+: l1 := by
      have h1 : u <:+ l1.reverse := List.dropWhile_suffix _
      have h2 := List.reverse_prefix.mpr h1
      simpa using h2
    rcases hu2 : u.reverse with _ | ⟨a, t⟩
    · rfl
    · rcases dropWhile_head_not Char.isWhitespace cs with h0 | ⟨b, t', h0, hb⟩
      · rw [← hl1] at h0
        rw [h0, hu2] at hpre
        rcases hpre with ⟨r, hr⟩
        simp at hr
      · rw [← hl1] at h0
        rw [hu2, h0] at hpre
        rcases hpre with ⟨r, hr⟩
        simp only [List.cons_append] at hr
        have hab : a = b := (List.cons.injEq _ _ _ _ ▸ hr).1
        exact List.dropWhile_cons_of_neg (by simp [hab, hb])
  rw [hdrop1]
  simp only [List.reverse_reverse]
  rw [hu, dropWhile_dropWhile_self]

/-- Trimming a string twice is the same as trimming it once. -/
theorem strTrim_idem (s : String) : strTrim (strTrim s) = strTrim s := by
  unfold strTrim
  simp [trimChars_idem]

/-! ### C1: casting a second vote with the same (pollId, voterSession) -/

/-- C1: a second `castVote` call with the same `(pollId, voterSession)` never
creates a second vote row and surfaces the already-voted error, which is
detected from the storage uniqueness-violation error code 23505; the stored
state is unchanged by the failed second call. -/
theorem castVote_second_call_alreadyVoted (s : DBState) (pollId : String) (i j : Int)
    (sess : String) (h : (castVote s pollId i sess).1 = .ok) :
    (castVote (castVote s pollId i sess).2 pollId j sess).1 = .alreadyVoted ∧
    (castVote (castVote s pollId i sess).2 pollId j sess).2 = (castVote s pollId i sess).2 ∧
    ((castVote s pollId i sess).2.votes.filter
        (fun w => w.poll_id == pollId && w.voter_session == sess)).length = 1 ∧
    votesInsert (castVote s pollId i sess).2
        { poll_id := pollId, option_index := j, voter_session := sess } =
      .error { code := "23505" } := by
  unfold castVote votesInsert at h ⊢
  by_cases hA : s.votes.any (fun w => w.poll_id == pollId && w.voter_session == sess) = true
  · simp [hA] at h
  · by_cases hB : s.polls.any (fun p => p.id == pollId) = true
    · simp only [Bool.not_eq_true] at hA
      simp only [hA, hB, if_true, if_false, Bool.false_eq_true] at h ⊢
      have hfil : s.votes.filter (fun w => w.poll_id == pollId && w.voter_session == sess) = [] := by
        rw [List.filter_eq_nil_iff]
        intro a ha
        have := List.any_eq_false.mp hA a ha
        simpa using this
      refine ⟨by simp [List.any_append], by simp [List.any_append], ?_, by simp [List.any_append]⟩
      simp [List.filter_append, hfil]
    · simp [hA, hB] at h

/-- Witness for C1 at a concrete database: the first vote succeeds and the
second call by the same session is rejected without changing the state. -/
theorem castVote_second_call_alreadyVoted_witness :
    (castVote dbFresh "poll1" 0 "s1").1 = .ok ∧
    ((castVote (castVote dbFresh "poll1" 0 "s1").2 "poll1" 1 "s1").1 = .alreadyVoted ∧
     (castVote (castVote dbFresh "poll1" 0 "s1").2 "poll1" 1 "s1").2 =
       (castVote dbFresh "poll1" 0 "s1").2 ∧
     ((castVote dbFresh "poll1" 0 "s1").2.votes.filter
         (fun w => w.poll_id == "poll1" && w.voter_session == "s1")).length = 1 ∧
     votesInsert (castVote dbFresh "poll1" 0 "s1").2
         { poll_id := "poll1", option_index := 1, voter_session := "s1" } =
       .error { code := "23505" }) :=
  ⟨by decide, castVote_second_call_alreadyVoted dbFresh "poll1" 0 1 "s1" (by decide)⟩

/-! ### C2: castVote performs no optionIndex / poll-existence validation -/

/-- C2 counterexample: `castVote` does not validate the option index and does
not surface a NotFound error for an absent poll.  On the two-option poll,
option index 5 is accepted and the out-of-range vote row is inserted; on an
absent poll the call fails with the generic foreign-key storage code 23503
(surfaced as `Failed to cast vote`), and no not-found check runs before the
insert. -/
theorem castVote_no_validation_counterexample :
    (castVote dbFresh "poll1" 5 "s9").1 = .ok ∧
    (castVote dbFresh "poll1" 5 "s9").2.votes =
      dbFresh.votes ++ [{ poll_id := "poll1", option_index := 5, voter_session := "s9" }] ∧
    pollAB.options.length = 2 ∧
    (castVote dbEmpty "ghost" 0 "s1").1 = .failed "23503" := by
  decide

/-- C2 amended: `castVote` performs no optionIndex validation at all — its
outcome is identical for every option index — and performs no poll-existence
pre-check: when no poll with `pollId` exists (and the session has not already
voted under that `pollId`), the insert itself fails with the foreign-key
storage error code 23503, surfaced as a generic failure rather than a
NotFound error, leaving the state unchanged. -/
theorem castVote_no_validation (s : DBState) (pollId : String) (i j : Int) (sess : String) :
    (castVote s pollId i sess).1 = (castVote s pollId j sess).1 ∧
    ((∀ p ∈ s.polls, p.id ≠ pollId) →
      (∀ v ∈ s.votes, ¬(v.poll_id = pollId ∧ v.voter_session = sess)) →
      (castVote s pollId i sess).1 = .failed "23503" ∧
      (castVote s pollId i sess).2 = s) := by
  constructor
  · unfold castVote votesInsert
    by_cases hA : s.votes.any (fun w => w.poll_id == pollId && w.voter_session == sess) = true
    · simp [hA]
    · by_cases hB : s.polls.any (fun p => p.id == pollId) = true
      · simp [hA, hB]
      · simp [hA, hB]
  · intro hpoll hvote
    unfold castVote votesInsert
    have hA : s.votes.any (fun w => w.poll_id == pollId && w.voter_session == sess) = false := by
      rw [List.any_eq_false]
      intro v hv
      have := hvote v hv
      simpa using this
    have hB : s.polls.any (fun p => p.id == pollId) = false := by
      rw [List.any_eq_false]
      intro p hp
      have := hpoll p hp
      simpa using this
    simp [hA, hB]

/-- Witness for the amended C2 at a concrete input: on the empty database the
vote on an absent poll fails with code 23503 and leaves the state unchanged,
and the outcome does not depend on the option index. -/
theorem castVote_no_validation_witness :
    ((castVote dbEmpty "ghost" 7 "s1").1 = (castVote dbEmpty "ghost" 0 "s1").1) ∧
    ((castVote dbEmpty "ghost" 7 "s1").1 = .failed "23503" ∧
     (castVote dbEmpty "ghost" 7 "s1").2 = dbEmpty) :=
  ⟨(castVote_no_validation dbEmpty "ghost" 7 0 "s1").1,
   (castVote_no_validation dbEmpty "ghost" 7 0 "s1").2 (by decide) (by decide)⟩

/-! ### C5: createPoll validation -/

/-- C5 counterexample: `createPoll` does not reject more than 6 options —
seven non-blank options are accepted and the poll is created — and it also
accepts zero non-blank options (the SQL `array_length` check is NULL on an
empty array and a NULL CHECK passes), so "fails when fewer than 2 non-empty
options remain" does not hold either. -/
theorem createPoll_validation_counterexample :
    ((createPoll dbEmpty "u1" "p9" "Pick your favourite" sevenOptions).1.isOk = true) ∧
    sevenOptions.length = 7 ∧
    ((sevenOptions.filter (fun o => strTrim o != "")).length = 7) ∧
    ((createPoll dbEmpty "u1" "p10" "Pick your favourite" ["  ", ""]).1.isOk = true) ∧
    (((["  ", ""] : List String).filter (fun o => strTrim o != "")).length = 0) := by
  decide

/-- C5 amended: `createPoll` fails exactly when the trimmed question has
fewer than 5 characters, or exactly one non-blank option remains after
filtering blanks; in those cases it does not create a poll (the state is
unchanged).  More than 6 options are accepted (no upper bound is enforced),
and zero non-blank options are also accepted because the SQL array-length
CHECK evaluates to NULL on an empty array. -/
theorem createPoll_validation (s : DBState) (uid newId q : String) (opts : List String) :
    ((createPoll s uid newId q opts).1.isOk = false ↔
      (strTrim q).length < 5 ∨ (opts.filter (fun o => strTrim o != "")).length = 1) ∧
    ((createPoll s uid newId q opts).1.isOk = false → (createPoll s uid newId q opts).2 = s) := by
  have hiff : ((questionCheck (strTrim q) &&
        optionsCheck (opts.filter (fun o => strTrim o != ""))) = false) ↔
      ((strTrim q).length < 5 ∨ (opts.filter (fun o => strTrim o != "")).length = 1) := by
    unfold questionCheck optionsCheck
    rw [strTrim_idem]
    by_cases h5 : 5 ≤ (strTrim q).length
    · by_cases hE : (opts.filter (fun o => strTrim o != "")).isEmpty = true
      · have h0 : (opts.filter (fun o => strTrim o != "")).length = 0 := by
          simp only [List.isEmpty_iff] at hE
          simp [hE]
        simp [h5, hE]
        omega
      · by_cases h2 : 2 ≤ (opts.filter (fun o => strTrim o != "")).length
        · simp [h5, hE, h2]
          omega
        · have h0 : (opts.filter (fun o => strTrim o != "")).length ≠ 0 := by
            intro h
            exact hE (List.isEmpty_iff.mpr (List.length_eq_zero.mp h))
          simp [h5, hE, h2]
          omega
    · simp [h5]
      omega
  rcases hc : (questionCheck (strTrim q) &&
      optionsCheck (opts.filter (fun o => strTrim o != ""))) with _ | _
  · simp only [createPoll, pollsInsert, hc, Bool.false_eq_true, if_false]
    constructor
    · simp only [Except.isOk, Except.toBool]
      simpa using hiff.mp hc
    · intro h
      exact trivial
  · simp only [createPoll, pollsInsert, hc, if_true]
    have hnot := hiff.not.mp (by simp [hc])
    constructor
    · simp only [Except.isOk, Except.toBool]
      simpa using hnot
    · intro h
      simp [Except.isOk, Except.toBool] at h

/-- Witness for the amended C5: a 3-character question is rejected and the
state is unchanged. -/
theorem createPoll_validation_witness :
    ((createPoll dbEmpty "u1" "p11" "abc" ["A", "B"]).1.isOk = false) ∧
    ((createPoll dbEmpty "u1" "p11" "abc" ["A", "B"]).2 = dbEmpty) :=
  ⟨(createPoll_validation dbEmpty "u1" "p11" "abc" ["A", "B"]).1.mpr (Or.inl (by decide)),
   (createPoll_validation dbEmpty "u1" "p11" "abc" ["A", "B"]).2
     ((createPoll_validation dbEmpty "u1" "p11" "abc" ["A", "B"]).1.mpr
       (Or.inl (by decide)))⟩

/-! ### C6: valid input round-trips the option order -/

/-- C6: for valid input — trimmed question of length at least 5 and between
2 and 6 non-blank options after blank-filtering — `createPoll` succeeds, and
the option sequence of the created poll is exactly the non-blank input options
in input order (a sublist of the input: order is preserved). -/
theorem createPoll_roundtrip (s : DBState) (uid newId q : String) (opts : List String)
    (hq : 5 ≤ (strTrim q).length)
    (hlo : 2 ≤ (opts.filter (fun o => strTrim o != "")).length)
    (hhi : (opts.filter (fun o => strTrim o != "")).length ≤ 6) :
    (createPoll s uid newId q opts).1 =
      .ok { id := newId, question := strTrim q,
            options := opts.filter (fun o => strTrim o != ""),
            user_id := some uid, is_public := false, share_token := none } ∧
    (createPoll s uid newId q opts).2.polls =
      s.polls ++ [{ id := newId, question := strTrim q,
                    options := opts.filter (fun o => strTrim o != ""),
                    user_id := some uid, is_public := false, share_token := none }] ∧
    List.Sublist (opts.filter (fun o => strTrim o != "")) opts := by
  have hqc : questionCheck (strTrim q) = true := by
    unfold questionCheck
    rw [strTrim_idem]
    simpa using hq
  have hoc : optionsCheck (opts.filter (fun o => strTrim o != "")) = true := by
    unfold optionsCheck
    simp [hlo]
  simp only [createPoll, pollsInsert, hqc, hoc, Bool.and_self, if_true]
  exact ⟨trivial, trivial, List.filter_sublist _⟩

/-- Witness for C6: a question and three options, one blank; the two
non-blank options round-trip in order. -/
theorem createPoll_roundtrip_witness :
    (createPoll dbEmpty "u1" "p12" "Which letter wins?" ["A", " ", "B"]).1 =
      .ok { id := "p12", question := strTrim "Which letter wins?",
            options := ["A", " ", "B"].filter (fun o => strTrim o != ""),
            user_id := some "u1", is_public := false, share_token := none } ∧
    (createPoll dbEmpty "u1" "p12" "Which letter wins?" ["A", " ", "B"]).2.polls =
      dbEmpty.polls ++
        [{ id := "p12", question := strTrim "Which letter wins?",
           options := ["A", " ", "B"].filter (fun o => strTrim o != ""),
           user_id := some "u1", is_public := false, share_token := none }] ∧
    List.Sublist (["A", " ", "B"].filter (fun o => strTrim o != "")) ["A", " ", "B"] :=
  createPoll_roundtrip dbEmpty "u1" "p12" "Which letter wins?" ["A", " ", "B"]
    (by decide) (by decide) (by decide)

/-! ### C7: publish / unpublish and lookup by share token -/

/-- Filtering a mapped list is mapping the filtered list. -/
theorem filter_map_comm (l : List α) (f : α → α) (p : α → Bool) :
    (l.map f).filter p = (l.filter (fun a => p (f a))).map f := by
  induction l with
  | nil => rfl
  | cons a t ih =>
    simp only [List.map_cons, List.filter_cons]
    by_cases h : p (f a) = true
    · simp [h, ih]
    · simp [h, ih]

/-- In a poll list with pairwise-distinct ids (the primary key), filtering by
the id of a member returns exactly that member. -/
theorem filter_id_single (l : List Poll) (p0 : Poll) (hmem : p0 ∈ l)
    (hnodup : (l.map (fun p => p.id)).Nodup) :
    l.filter (fun p => p.id == p0.id) = [p0] := by
  induction l with
  | nil => cases hmem
  | cons a t ih =>
    simp only [List.map_cons, List.nodup_cons] at hnodup
    rcases List.mem_cons.mp hmem with rfl | hmem'
    · have htnil : t.filter (fun p => p.id == p0.id) = [] := by
        rw [List.filter_eq_nil_iff]
        intro q hq hbad
        exact hnodup.1 (by
          simp only [beq_iff_eq] at hbad
          exact List.mem_map.mpr ⟨q, hq, hbad⟩)
      simp [List.filter_cons, htnil]
    · have hne : a.id ≠ p0.id := by
        intro hbad
        exact hnodup.1 (hbad ▸ List.mem_map.mpr ⟨p0, hmem', rfl⟩)
      simp only [List.filter_cons]
      rw [if_neg (by simpa using hne)]
      exact ih hmem' hnodup.2

/-- C7: for a stored poll, `generateShareLink` (publish) followed by
`getPollByShareToken` with the returned token finds that same poll (now with
`is_public = true` and the token); after `disableSharing` (unpublish) the
same lookup returns `none`; and `getPollByShareToken` only ever returns
polls whose `is_public` flag is true.  The hypotheses are the storage
invariants: the poll is stored, ids are unique (primary key), and the token
is fresh (uniqueness of `share_token`). -/
theorem shareLink_roundtrip (s : DBState) (p0 : Poll) (token : String)
    (hmem : p0 ∈ s.polls)
    (hnodup : (s.polls.map (fun p => p.id)).Nodup)
    (hfresh : ∀ q ∈ s.polls, q.share_token ≠ some token) :
    getPollByShareToken (generateShareLink s p0.id token).1 token =
      .ok (some { p0 with is_public := true, share_token := some token }) ∧
    getPollByShareToken (disableSharing (generateShareLink s p0.id token).1 p0.id) token =
      .ok none ∧
    (∀ (s2 : DBState) (tok : String) (q : Poll),
        getPollByShareToken s2 tok = .ok (some q) → q.is_public = true) := by
  refine ⟨?_, ?_, ?_⟩
  · unfold getPollByShareToken generateShareLink
    have hf : ((s.polls.map (fun p =>
        if p.id == p0.id then { p with is_public := true, share_token := some token } else p)).filter
          (fun p => p.share_token == some token && p.is_public)) =
        [{ p0 with is_public := true, share_token := some token }] := by
      rw [filter_map_comm]
      have heq : (s.polls.filter (fun a =>
          (if a.id == p0.id then
              { a with is_public := true, share_token := some token } else a).share_token
            == some token &&
          (if a.id == p0.id then
              { a with is_public := true, share_token := some token } else a).is_public)) =
          s.polls.filter (fun p => p.id == p0.id) := by
        apply List.filter_congr
        intro q hq
        by_cases h : q.id == p0.id
        · simp [h]
        · simp only [h, if_neg, Bool.false_eq_true, if_false]
          simp only [Bool.not_eq_true] at h
          simp [h, hfresh q hq]
      rw [heq, filter_id_single s.polls p0 hmem hnodup]
      simp
    rw [hf]
  · unfold getPollByShareToken disableSharing generateShareLink
    have hf : ((((s.polls.map (fun p =>
        if p.id == p0.id then
          { p with is_public := true, share_token := some token } else p))).map
          (fun p => if p.id == p0.id then
            { p with is_public := false, share_token := none } else p)).filter
            (fun p => p.share_token == some token && p.is_public)) = [] := by
      rw [List.filter_eq_nil_iff]
      intro q hq
      rcases List.mem_map.mp hq with ⟨q1, hq1, rfl⟩
      rcases List.mem_map.mp hq1 with ⟨q2, hq2, rfl⟩
      by_cases h : q2.id == p0.id
      · simp [h]
      · simp only [h, Bool.false_eq_true, if_false]
        simp only [Bool.not_eq_true] at h
        simp [h, hfresh q2 hq2]
    rw [hf]
  · intro s2 tok q hq
    unfold getPollByShareToken at hq
    rcases hfil : s2.polls.filter (fun p => p.share_token == some tok && p.is_public)
      with _ | ⟨a, t⟩
    · rw [hfil] at hq
      simp at hq
    · rcases t with _ | ⟨b, t2⟩
      · rw [hfil] at hq
        simp at hq
        have ha : a ∈ s2.polls.filter (fun p => p.share_token == some tok && p.is_public) := by
          rw [hfil]
          exact List.mem_singleton.mpr rfl
        have hkeep := List.of_mem_filter ha
        simp only [Bool.and_eq_true, beq_iff_eq] at hkeep
        rw [← hq]
        exact hkeep.2
      · rw [hfil] at hq
        simp at hq

/-- Witness for C7 on a one-poll database: publish then lookup returns the
poll, and after unpublish the lookup returns none. -/
theorem shareLink_roundtrip_witness :
    getPollByShareToken (generateShareLink dbPrivate pollPrivate.id "tokX").1 "tokX" =
      .ok (some { pollPrivate with is_public := true, share_token := some "tokX" }) ∧
    getPollByShareToken
        (disableSharing (generateShareLink dbPrivate pollPrivate.id "tokX").1 pollPrivate.id)
        "tokX" = .ok none :=
  ⟨(shareLink_roundtrip dbPrivate pollPrivate "tokX" (by decide) (by decide) (by decide)).1,
   (shareLink_roundtrip dbPrivate pollPrivate "tokX" (by decide) (by decide) (by decide)).2.1⟩

/-! ### C9: the statistics read path masks storage errors -/

/-- C9: whenever the underlying RPC errors, `getPollStatistics` returns the
empty list and `getPollTotalVotes` returns 0 — exactly the values the
stored functions produce for a poll with no votes, so a failed read is
indistinguishable from a poll with no votes. -/
theorem statisticsRead_masksErrors (e : PgError) (s : DBState) (pollId : String)
    (h : s.votes.filter (fun v => v.poll_id == pollId) = []) :
    getPollStatistics (.error e) = [] ∧
    getPollTotalVotes (.error e) = 0 ∧
    getPollStatistics (.error e) = get_poll_statistics s pollId ∧
    getPollTotalVotes (.error e) = get_poll_total_votes s pollId := by
  refine ⟨rfl, rfl, ?_, ?_⟩
  · simp [getPollStatistics, get_poll_statistics, groupedIndices, pollVotes, h,
      List.insertionSort]
  · simp [getPollTotalVotes, get_poll_total_votes, h]

/-- Witness for C9: a query-cancelled storage error on the fresh one-poll
database is indistinguishable from its zero-vote statistics. -/
theorem statisticsRead_masksErrors_witness :
    getPollStatistics (.error { code := "57014" }) = [] ∧
    getPollTotalVotes (.error { code := "57014" }) = 0 ∧
    getPollStatistics (.error { code := "57014" }) = get_poll_statistics dbFresh "poll1" ∧
    getPollTotalVotes (.error { code := "57014" }) = get_poll_total_votes dbFresh "poll1" :=
  statisticsRead_masksErrors { code := "57014" } dbFresh "poll1" (by decide)

/-! ### C10: the winning option -/

/-- A left fold of `max` either returns its seed or an element of the list. -/
theorem foldl_max_eq_or_mem (l : List Nat) (b : Nat) :
    l.foldl max b = b ∨ l.foldl max b ∈ l := by
  induction l generalizing b with
  | nil => exact Or.inl rfl
  | cons a t ih =>
    simp only [List.foldl_cons]
    rcases ih (max b a) with h | h
    · rcases max_choice b a with hm | hm
      · exact Or.inl (h.trans hm)
      · exact Or.inr (List.mem_cons.mpr (Or.inl (h.trans hm)))
    · exact Or.inr (List.mem_cons.mpr (Or.inr h))

/-- A left fold of `max` bounds the seed and every element of the list. -/
theorem le_foldl_max (l : List Nat) (b : Nat) :
    b ≤ l.foldl max b ∧ ∀ x ∈ l, x ≤ l.foldl max b := by
  induction l generalizing b with
  | nil => exact ⟨le_refl b, by simp⟩
  | cons a t ih =>
    simp only [List.foldl_cons]
    have h := ih (max b a)
    refine ⟨le_trans (Nat.le_max_left b a) h.1, ?_⟩
    intro x hx
    rcases List.mem_cons.mp hx with rfl | hx'
    · exact le_trans (Nat.le_max_right b x) h.1
    · exact h.2 x hx'

/-- On a list sorted by strictly ascending option index, `find?` returns the
entry with the least option index among those satisfying the predicate. -/
theorem find?_first_sorted (l : List StatRow) (p : StatRow → Bool) (w : StatRow)
    (hsorted : l.Pairwise (fun a b => a.option_index < b.option_index))
    (hfind : l.find? p = some w) :
    ∀ st ∈ l, p st = true → w.option_index ≤ st.option_index := by
  induction l with
  | nil => simp at hfind
  | cons a t ih =>
    rcases List.pairwise_cons.mp hsorted with ⟨ha, ht⟩
    by_cases hpa : p a = true
    · rw [List.find?_cons_of_pos _ hpa] at hfind
      cases hfind
      intro st hst _
      rcases List.mem_cons.mp hst with rfl | hst'
      · exact le_refl _
      · exact le_of_lt (ha st hst')
    · rw [List.find?_cons_of_neg _ hpa] at hfind
      intro st hst hpst
      rcases List.mem_cons.mp hst with rfl | hst'
      · exact absurd hpst hpa
      · exact ih ht hfind st hst' hpst

/-- C10: on a statistics list ordered by ascending option index,
`getWinningOption` returns `none` exactly when the list is empty or the
maximum vote count is zero, and otherwise deterministically returns the
entry with the lowest option index among those sharing the maximum vote
count. -/
theorem getWinningOption_spec (stats : List StatRow)
    (hsorted : stats.Pairwise (fun a b => a.option_index < b.option_index)) :
    (getWinningOption stats = none ↔ stats = [] ∨ maxVoteCount stats = 0) ∧
    (∀ w, getWinningOption stats = some w →
      w ∈ stats ∧ w.vote_count = maxVoteCount stats ∧
      ∀ st ∈ stats, st.vote_count = maxVoteCount stats → w.option_index ≤ st.option_index) := by
  rcases hempty : stats with _ | ⟨a, t⟩
  · constructor
    · simp [getWinningOption]
    · intro w hw
      simp [getWinningOption] at hw
  · rw [← hempty]
    have hne : stats.isEmpty = false := by rw [hempty]; rfl
    by_cases hz : maxVoteCount stats = 0
    · constructor
      · constructor
        · intro _
          exact Or.inr hz
        · intro _
          unfold getWinningOption
          rw [hne]
          simp only [Bool.false_eq_true, if_false]
          rcases hfind : stats.find? (fun st => st.vote_count == maxVoteCount stats) with _ | w
          · rw [hfind]
          · rw [hfind]
            simp [hz]
      · intro w hw
        unfold getWinningOption at hw
        rw [hne] at hw
        simp only [Bool.false_eq_true, if_false] at hw
        rcases hfind : stats.find? (fun st => st.vote_count == maxVoteCount stats) with _ | w2
        · rw [hfind] at hw
          simp at hw
        · rw [hfind] at hw
          simp [hz] at hw
    · have hmem : maxVoteCount stats ∈ stats.map (fun st => st.vote_count) := by
        rcases foldl_max_eq_or_mem (stats.map (fun st => st.vote_count)) 0 with h | h
        · exact absurd h hz
        · exact h
      rcases List.mem_map.mp hmem with ⟨st0, hst0, hst0v⟩
      have hfind : ∃ w, stats.find? (fun st => st.vote_count == maxVoteCount stats) = some w := by
        rcases hf : stats.find? (fun st => st.vote_count == maxVoteCount stats) with _ | w
        · exfalso
          have := List.find?_eq_none.mp hf st0 hst0
          simp [hst0v] at this
        · exact ⟨w, hf⟩
      rcases hfind with ⟨w, hw⟩
      have hres : getWinningOption stats = some w := by
        unfold getWinningOption
        rw [hne]
        simp only [Bool.false_eq_true, if_false]
        rw [hw]
        simp [hz]
      constructor
      · rw [hres]
        constructor
        · intro h
          simp at h
        · intro h
          rcases h with h | h
          · rw [h] at hempty
            simp at hempty
          · exact absurd h hz
      · intro w2 hw2
        rw [hres] at hw2
        cases hw2
        have hwp := List.find?_some hw
        simp only [beq_iff_eq] at hwp
        refine ⟨List.mem_of_find?_eq_some hw, hwp, ?_⟩
        intro st hst hstv
        exact find?_first_sorted stats _ w hsorted hw st hst (by simp [hstv])

/-- Witness for C10 on the concrete two-row statistics list. -/
theorem getWinningOption_spec_witness :
    (getWinningOption statsExample = none ↔
      statsExample = [] ∨ maxVoteCount statsExample = 0) ∧
    (∀ w, getWinningOption statsExample = some w →
      w ∈ statsExample ∧ w.vote_count = maxVoteCount statsExample ∧
      ∀ st ∈ statsExample, st.vote_count = maxVoteCount statsExample →
        w.option_index ≤ st.option_index) :=
  getWinningOption_spec statsExample (by decide)

/-! ### C3: percentages -/

/-- Counting votes with a given option index is counting that index among
the mapped option indexes. -/
theorem length_filter_optionIndex (l : List Vote) (i : Int) :
    (l.filter (fun v => v.option_index == i)).length =
      (l.map (fun v => v.option_index)).count i := by
  induction l with
  | nil => rfl
  | cons v t ih =>
    by_cases h : v.option_index == i
    · simp [List.filter_cons, List.count_cons, h, ih]
    · simp [List.filter_cons, List.count_cons, h, ih]

/-- The `SUM(count)` of the `total_votes` CTE equals the number of the
vote rows of the poll, i.e. the value of `get_poll_total_votes`. -/
theorem statsTotal_eq (s : DBState) (pollId : String) :
    statsTotal s pollId = get_poll_total_votes s pollId := by
  unfold statsTotal groupedIndices get_poll_total_votes
  have hcongr : ∀ i ∈ List.insertionSort (fun a b : Int => a ≤ b)
      ((pollVotes s pollId).map (fun v => v.option_index)).dedup,
      optionCount s pollId i = ((pollVotes s pollId).map (fun v => v.option_index)).count i := by
    intro i _
    exact length_filter_optionIndex (pollVotes s pollId) i
  rw [List.map_congr_left hcongr]
  have hperm : List.Perm
      (List.insertionSort (fun a b : Int => a ≤ b)
        ((pollVotes s pollId).map (fun v => v.option_index)).dedup)
      ((pollVotes s pollId).map (fun v => v.option_index)).dedup :=
    List.perm_insertionSort _ _
  rw [(hperm.map _).sum_eq]
  rw [List.sum_map_count_dedup_eq_length]
  rw [List.length_map]
  rfl

/-- Rounding to two decimal places moves a rational by at most 1/200. -/
theorem abs_roundTo2_sub (q : ℚ) : |roundTo2 q - q| ≤ 1 / 200 := by
  have h := abs_sub_round (q * 100)
  rw [roundTo2]
  have heq : ((round (q * 100) : ℤ) : ℚ) / 100 - q = -((q * 100 - (round (q * 100) : ℤ)) / 100) := by
    ring
  rw [heq, abs_neg, abs_div]
  rw [abs_of_pos (by norm_num : (0 : ℚ) < 100)]
  linarith

/-- Subtracting two mapped sums termwise. -/
theorem list_sum_map_sub (l : List Int) (f g : Int → ℚ) :
    (l.map f).sum - (l.map g).sum = (l.map (fun i => f i - g i)).sum := by
  induction l with
  | nil => simp
  | cons a t ih =>
    simp only [List.map_cons, List.sum_cons]
    rw [← ih]
    ring

/-- A mapped sum of terms of absolute value at most `c` has absolute value
at most `length * c`. -/
theorem list_abs_sum_le (l : List Int) (f : Int → ℚ) (c : ℚ)
    (hb : ∀ i ∈ l, |f i| ≤ c) :
    |(l.map f).sum| ≤ (l.length : ℚ) * c := by
  induction l with
  | nil => simp
  | cons a t ih =>
    simp only [List.map_cons, List.sum_cons, List.length_cons]
    have h1 := hb a (List.mem_cons_self a t)
    have h2 := ih (fun i hi => hb i (List.mem_cons_of_mem a hi))
    calc |f a + (t.map f).sum| ≤ |f a| + |(t.map f).sum| := abs_add _ _
      _ ≤ c + (t.length : ℚ) * c := add_le_add h1 h2
      _ = ((t.length : ℚ) + 1) * c := by ring
      _ = ((t.length + 1 : ℕ) : ℚ) * c := by push_cast; ring

/-- The exact (unrounded) percentages over the grouped indexes sum to 100
whenever the total is positive. -/
theorem exact_percentages_sum (s : DBState) (pollId : String)
    (h : 0 < statsTotal s pollId) :
    ((groupedIndices s pollId).map
      (fun i => (optionCount s pollId i : ℚ) / (statsTotal s pollId : ℚ) * 100)).sum = 100 := by
  have h1 : ∀ i ∈ groupedIndices s pollId,
      (optionCount s pollId i : ℚ) / (statsTotal s pollId : ℚ) * 100 =
        (optionCount s pollId i : ℚ) * (100 / (statsTotal s pollId : ℚ)) := by
    intro i _
    ring
  rw [List.map_congr_left h1, List.sum_map_mul_right]
  have h2 : ((groupedIndices s pollId).map (fun i => ((optionCount s pollId i : ℕ) : ℚ))).sum =
      ((statsTotal s pollId : ℕ) : ℚ) := by
    rw [statsTotal, Nat.cast_list_sum, List.map_map]
    rfl
  rw [h2]
  have hne : ((statsTotal s pollId : ℕ) : ℚ) ≠ 0 := by
    have hz : statsTotal s pollId ≠ 0 := by omega
    exact_mod_cast hz
  field_simp

/-- C3: whenever a poll has at least one vote, every returned statistics
row carries a percentage equal to `round(count / total * 100, 2)` over the
votes of the poll, and the returned percentages sum to 100 up to the error
(at most 1/200 per row). -/
theorem statistics_percentages (s : DBState) (pollId : String)
    (h : 0 < get_poll_total_votes s pollId) :
    (∀ row ∈ get_poll_statistics s pollId,
        row.percentage =
          roundTo2 ((row.vote_count : ℚ) / (get_poll_total_votes s pollId : ℚ) * 100)) ∧
    |((get_poll_statistics s pollId).map (fun row => row.percentage)).sum - 100| ≤
      ((get_poll_statistics s pollId).length : ℚ) * (1 / 200) := by
  have htot : statsTotal s pollId = get_poll_total_votes s pollId := statsTotal_eq s pollId
  have hTpos : 0 < statsTotal s pollId := by rw [htot]; exact h
  constructor
  · intro row hrow
    rcases List.mem_map.mp hrow with ⟨i, hi, rfl⟩
    show (if 0 < statsTotal s pollId then
        roundTo2 ((optionCount s pollId i : ℚ) / (statsTotal s pollId : ℚ) * 100) else 0) =
      roundTo2 ((optionCount s pollId i : ℚ) / (get_poll_total_votes s pollId : ℚ) * 100)
    rw [if_pos hTpos, htot]
  · have hstats : (get_poll_statistics s pollId).map (fun row => row.percentage) =
        (groupedIndices s pollId).map
          (fun i => roundTo2 ((optionCount s pollId i : ℚ) / (statsTotal s pollId : ℚ) * 100)) := by
      rw [get_poll_statistics, List.map_map]
      apply List.map_congr_left
      intro i _
      simp only [Function.comp]
      rw [if_pos hTpos]
    have hlen : (get_poll_statistics s pollId).length = (groupedIndices s pollId).length := by
      rw [get_poll_statistics, List.length_map]
    rw [hstats, hlen]
    have hsplit := list_sum_map_sub (groupedIndices s pollId)
      (fun i => roundTo2 ((optionCount s pollId i : ℚ) / (statsTotal s pollId : ℚ) * 100))
      (fun i => (optionCount s pollId i : ℚ) / (statsTotal s pollId : ℚ) * 100)
    rw [exact_percentages_sum s pollId hTpos] at hsplit
    rw [hsplit]
    exact list_abs_sum_le _ _ _ (fun i _ => abs_roundTo2_sub _)

/-- Witness for C3 at the worked scenario: three votes, total positive. -/
theorem statistics_percentages_witness :
    (∀ row ∈ get_poll_statistics dbScenario "poll1",
        row.percentage =
          roundTo2 ((row.vote_count : ℚ) / (get_poll_total_votes dbScenario "poll1" : ℚ) * 100)) ∧
    |((get_poll_statistics dbScenario "poll1").map (fun row => row.percentage)).sum - 100| ≤
      ((get_poll_statistics dbScenario "poll1").length : ℚ) * (1 / 200) :=
  statistics_percentages dbScenario "poll1" (by decide)

/-! ### C4: the shape of the statistics sequence -/

/-- Two nested filters over the votes merge into one conjunctive filter. -/
theorem filter_filter_votes (l : List Vote) (pid : String) (i : Int) :
    ((l.filter (fun v => v.poll_id == pid)).filter (fun v => v.option_index == i)) =
      l.filter (fun v => v.poll_id == pid && v.option_index == i) := by
  induction l with
  | nil => rfl
  | cons v t ih =>
    by_cases h1 : v.poll_id == pid <;> by_cases h2 : v.option_index == i <;>
      simp [List.filter_cons, h1, h2, ih]

/-- The grouped option indexes are strictly ascending and are exactly the
option indexes occurring among the votes of the poll. -/
theorem groupedIndices_sorted_mem (s : DBState) (pollId : String) :
    (groupedIndices s pollId).Pairwise (fun a b : Int => a < b) ∧
    (∀ i : Int, i ∈ groupedIndices s pollId ↔
      ∃ v ∈ s.votes, v.poll_id = pollId ∧ v.option_index = i) := by
  constructor
  · have hs : (groupedIndices s pollId).Pairwise (fun a b : Int => a ≤ b) :=
      List.sorted_insertionSort _ _
    have hperm : List.Perm (groupedIndices s pollId)
        ((pollVotes s pollId).map (fun v => v.option_index)).dedup :=
      List.perm_insertionSort _ _
    have hn : (groupedIndices s pollId).Nodup :=
      hperm.nodup_iff.mpr (List.nodup_dedup _)
    exact (hs.and hn).imp (fun h => lt_of_le_of_ne h.1 h.2)
  · intro i
    have hperm : List.Perm (groupedIndices s pollId)
        ((pollVotes s pollId).map (fun v => v.option_index)).dedup :=
      List.perm_insertionSort _ _
    rw [hperm.mem_iff, List.mem_dedup, List.mem_map]
    constructor
    · rintro ⟨v, hv, rfl⟩
      have hv2 := List.mem_filter.mp hv
      exact ⟨v, hv2.1, by simpa using hv2.2, rfl⟩
    · rintro ⟨v, hv, hpid, hidx⟩
      exact ⟨v, List.mem_filter.mpr ⟨hv, by simpa using hpid⟩, hidx⟩

/-- C4 amended: the statistics sequence is ordered by strictly ascending
option index and contains exactly one entry for each option index having at
least one vote — options with zero votes are omitted — where each entry
counts the votes of the poll for that option; when the total vote
count is zero the sequence is empty. -/
theorem get_poll_statistics_shape (s : DBState) (pollId : String) :
    ((get_poll_statistics s pollId).Pairwise
      (fun a b => a.option_index < b.option_index)) ∧
    (∀ i : Int, (∃ row ∈ get_poll_statistics s pollId, row.option_index = i) ↔
      ∃ v ∈ s.votes, v.poll_id = pollId ∧ v.option_index = i) ∧
    (∀ row ∈ get_poll_statistics s pollId,
      row.vote_count =
        (s.votes.filter
          (fun v => v.poll_id == pollId && v.option_index == row.option_index)).length) ∧
    (get_poll_total_votes s pollId = 0 → get_poll_statistics s pollId = []) := by
  rcases groupedIndices_sorted_mem s pollId with ⟨hsorted, hmem⟩
  refine ⟨?_, ?_, ?_, ?_⟩
  · rw [get_poll_statistics, List.pairwise_map]
    exact hsorted
  · intro i
    rw [← hmem i]
    constructor
    · rintro ⟨row, hrow, hidx⟩
      rcases List.mem_map.mp hrow with ⟨j, hj, rfl⟩
      exact hidx ▸ hj
    · intro hi
      exact ⟨_, List.mem_map.mpr ⟨i, hi, rfl⟩, rfl⟩
  · intro row hrow
    rcases List.mem_map.mp hrow with ⟨i, hi, rfl⟩
    show optionCount s pollId i =
      (s.votes.filter (fun v => v.poll_id == pollId && v.option_index == i)).length
    rw [optionCount, pollVotes, filter_filter_votes]
  · intro h0
    have hpv : pollVotes s pollId = [] := by
      rw [pollVotes, ← List.length_eq_zero]
      exact h0
    rw [get_poll_statistics, groupedIndices, hpv]
    rfl

/-- Witness for the amended C4: the fresh poll has no votes and an empty
statistics sequence. -/
theorem get_poll_statistics_shape_witness :
    get_poll_total_votes dbFresh "poll1" = 0 ∧ get_poll_statistics dbFresh "poll1" = [] :=
  ⟨by decide, (get_poll_statistics_shape dbFresh "poll1").2.2.2 (by decide)⟩

/-- C4 counterexample: on the two-option poll with a single vote for option
index 1, the statistics sequence has a single entry — there is no entry for
option index 0, although it is an option index of the poll — and on the same
poll with no votes at all, the sequence is empty rather than listing each
option with a zero percentage. -/
theorem get_poll_statistics_missing_options_counterexample :
    get_poll_statistics dbOneVote "poll1" =
      [{ option_index := 1, vote_count := 1, percentage := 100 }] ∧
    pollAB.options.length = 2 ∧
    (¬ ∃ row ∈ get_poll_statistics dbOneVote "poll1", row.option_index = 0) ∧
    get_poll_statistics dbFresh "poll1" = [] := by
  have h0 : get_poll_statistics dbOneVote "poll1" =
      [{ option_index := 1, vote_count := 1,
         percentage := if 0 < 1 then roundTo2 ((1 : ℚ) / (1 : ℚ) * 100) else 0 }] := by
    rfl
  refine ⟨?_, by decide, ?_, by rfl⟩
  · rw [h0]
    norm_num [roundTo2, round_eq]
  · rw [h0]
    rintro ⟨row, hrow, hidx⟩
    simp only [List.mem_singleton] at hrow
    rw [hrow] at hidx
    simp at hidx

/-! ### C8: the worked scenario -/

/-- C8: on the poll with options A and B and three votes by distinct
sessions for option indexes 0, 0 and 1, the statistics are
(0, 2, 66.67) and (1, 1, 33.33), the total is 3, and the winning option is
option index 0. -/
theorem scenario_statistics :
    get_poll_statistics dbScenario "poll1" =
      [ { option_index := 0, vote_count := 2, percentage := 6667 / 100 },
        { option_index := 1, vote_count := 1, percentage := 3333 / 100 } ] ∧
    get_poll_total_votes dbScenario "poll1" = 3 ∧
    (getWinningOption (get_poll_statistics dbScenario "poll1")).map
      (fun w => w.option_index) = some 0 ∧
    (dbScenario.votes.map (fun v => v.voter_session)).Nodup := by
  have h0 : get_poll_statistics dbScenario "poll1" =
      [ { option_index := 0, vote_count := 2,
          percentage := if 0 < 3 then roundTo2 ((2 : ℚ) / (3 : ℚ) * 100) else 0 },
        { option_index := 1, vote_count := 1,
          percentage := if 0 < 3 then roundTo2 ((1 : ℚ) / (3 : ℚ) * 100) else 0 } ] := by
    rfl
  refine ⟨?_, by decide, ?_, by decide⟩
  · rw [h0]
    norm_num [roundTo2, round_eq]
  · rw [h0]
    rfl

end Polling
